import Mathlib

/-
Verification development for the calculator-mcp expression evaluator
(src/calculator_mcp/advanced_math.py).

The Python module is embedded shallowly:
  * Python's `Operand = Union[int, float, str]` becomes the inductive type
    `Operand` below; Python floats are idealized as real numbers (the claims
    under study only exercise values where IEEE arithmetic is exact or where
    only the int/float distinction matters).
  * Each Python `raise ValueError(msg)` site becomes a distinct constructor
    of `EvalError`; `evaluate_expression` returns `Except EvalError Operand`.
  * The recursive-descent parser (`parse_expression` / `parse_term` /
    `parse_factor` plus the two operator `while` loops) becomes the single
    fuel-indexed function `parseRun`; `none` marks fuel exhaustion, which is
    proved unreachable for the fuel used by `evaluate_expression`.
-/

namespace CalculatorMCP

/-- Python `Operand = Union[int, float, str]`.  Floats are modelled as real
numbers. -/
inductive Operand where
  | intV : Int → Operand
  | floatV : ℝ → Operand
  | strV : String → Operand
deriving Inhabited

/-- One constructor per distinct `raise ValueError(...)` site reachable from
`evaluate_expression`, plus `outOfFuel`, an artifact of the fuel-indexed
embedding that is proved unreachable. -/
inductive EvalError where
  | emptyExpression
  | invalidOperand : String → EvalError
  | sqrtNegative
  | invalidUnaryOp
  | divisionByZero
  | logBadBase
  | logNonPositive
  | invalidBinaryOp
  | missingCloseParenSqrt
  | sqrtRequiresParens
  | missingCloseParenLog
  | missingArgSeparator
  | logRequiresParens
  | missingCloseParen
  | expectedNumber : Nat → EvalError
  | invalidNumberFormat : List Char → EvalError
  | unexpectedChar : Nat → EvalError
  | outOfFuel
deriving DecidableEq

/-- The spec groups the three log/sqrt domain failures under `DomainError`. -/
def EvalError.isDomainError : EvalError → Bool
  | .sqrtNegative => true
  | .logBadBase => true
  | .logNonPositive => true
  | _ => false

/-- The spec groups the two ways a numeric literal can fail to parse
(`Expected number at position p`, `Invalid number format: s`) under
`MalformedNumber`. -/
def EvalError.isMalformedNumber : EvalError → Bool
  | .expectedNumber _ => true
  | .invalidNumberFormat _ => true
  | _ => false

/-- The numeric value of an operand (`strV` never reaches arithmetic: the
dispatcher resolves constants first, so that branch is junk). -/
noncomputable def Operand.toR : Operand → ℝ
  | .intV n => (n : ℝ)
  | .floatV x => x
  | .strV _ => 0

/-- Python comparison `a < 0` on an already-resolved operand. -/
noncomputable def Operand.ltZeroB : Operand → Bool
  | .intV n => decide (n < 0)
  | .floatV x => decide (x < 0)
  | .strV _ => false

/-- Python comparison `a <= 0` on an already-resolved operand. -/
noncomputable def Operand.leZeroB : Operand → Bool
  | .intV n => decide (n ≤ 0)
  | .floatV x => decide (x ≤ 0)
  | .strV _ => false

/-- Python comparison `a == 0` on an already-resolved operand. -/
noncomputable def Operand.eqZeroB : Operand → Bool
  | .intV n => decide (n = 0)
  | .floatV x => decide (x = 0)
  | .strV _ => false

/-- Python comparison `a == 1` on an already-resolved operand. -/
noncomputable def Operand.eqOneB : Operand → Bool
  | .intV n => decide (n = 1)
  | .floatV x => decide (x = 1)
  | .strV _ => false

/-- True exactly on numeric (non-string) operands. -/
def Operand.isNum : Operand → Bool
  | .strV _ => false
  | _ => true

/-- The constant-substitution prelude shared by `unary_operation` and
`binary_operation`: `pi` and `e` become floats, any other string raises
`Invalid operand`. -/
noncomputable def resolveConst : Operand → Except EvalError Operand
  | .strV s =>
    if s = "pi" then .ok (.floatV Real.pi)
    else if s = "e" then .ok (.floatV (Real.exp 1))
    else .error (.invalidOperand s)
  | v => .ok v

/-- Python `a + b` (int + int stays int, otherwise float). -/
noncomputable def addV : Operand → Operand → Operand
  | .intV a, .intV b => .intV (a + b)
  | a, b => .floatV (a.toR + b.toR)

/-- Python `a - b`. -/
noncomputable def subV : Operand → Operand → Operand
  | .intV a, .intV b => .intV (a - b)
  | a, b => .floatV (a.toR - b.toR)

/-- Python `a * b`. -/
noncomputable def mulV : Operand → Operand → Operand
  | .intV a, .intV b => .intV (a * b)
  | a, b => .floatV (a.toR * b.toR)

/-- Python `a ** b`: int ** nonnegative int is an int; every other case is a
float, modelled with the real power (the source's silent complex fallback for
negative base and fractional exponent is the spec's open question and is not
exercised by any claim). -/
noncomputable def powV : Operand → Operand → Operand
  | .intV a, .intV b =>
    if 0 ≤ b then .intV (a ^ b.toNat) else .floatV (Real.rpow (a : ℝ) (b : ℝ))
  | a, b => .floatV (Real.rpow a.toR b.toR)

/-- Python function unary_operation from advanced_math.py: resolve constants, then `sqrt`
with its negative-argument domain check; any other name raises
`Invalid operation`. -/
noncomputable def unary_operation (a : Operand) (operation : String) :
    Except EvalError Operand :=
  match resolveConst a with
  | .error e => .error e
  | .ok a =>
    if operation = "sqrt" then
      if a.ltZeroB then .error .sqrtNegative
      else .ok (.floatV (Real.sqrt a.toR))
    else .error .invalidUnaryOp

/-- Python function binary_operation from advanced_math.py.  Note the `log` branch: it
validates `a` as the base and `b` as the value and returns `math.log(b, a)`,
i.e. the logarithm of `b` in base `a` (`Real.logb a b`). -/
noncomputable def binary_operation (a b : Operand) (operation : String) :
    Except EvalError Operand :=
  match resolveConst a with
  | .error e => .error e
  | .ok a =>
    match resolveConst b with
    | .error e => .error e
    | .ok b =>
      if operation = "+" then .ok (addV a b)
      else if operation = "-" then .ok (subV a b)
      else if operation = "*" then .ok (mulV a b)
      else if operation = "/" then
        if b.eqZeroB then .error .divisionByZero
        else .ok (.floatV (a.toR / b.toR))
      else if operation = "**" then .ok (powV a b)
      else if operation = "log" then
        if a.leZeroB || a.eqOneB then .error .logBadBase
        else if b.leZeroB then .error .logNonPositive
        else .ok (.floatV (Real.logb a.toR b.toR))
      else .error .invalidBinaryOp

/-- The scanner predicate from the number branch of `parse_factor`:
`expr[pos].isdigit() or expr[pos] == '.'` (digits taken as ASCII digits,
which is all any claim exercises). -/
def isNumChar (c : Char) : Bool := c.isDigit || c = '.'

/-- Decimal value of a digit run, most significant first. -/
def digitsToNatAux : Nat → List Char → Nat
  | acc, [] => acc
  | acc, c :: cs => digitsToNatAux (acc * 10 + (c.toNat - 48)) cs

/-- Decimal value of a digit run. -/
def digitsToNat (l : List Char) : Nat := digitsToNatAux 0 l

/-- Models Python `float(s)` on exactly the slices the number branch of
`parse_factor` can produce (an optional leading minus followed by a run of
digits and dots): such a slice is a valid float literal precisely when it has
at most one dot and at least one digit, and its value is the usual decimal
value.  `float("-")`, `float(".")` and `float("1.2.3")` raise, matching the
`none` cases here. -/
def pyFloat? (l : List Char) : Option ℚ :=
  let neg : Bool := match l with
    | '-' :: _ => true
    | _ => false
  let body : List Char := match l with
    | '-' :: rest => rest
    | _ => l
  if body.all isNumChar ∧ body.count '.' ≤ 1 ∧ body.any Char.isDigit then
    let ip := body.takeWhile (fun c => c ≠ '.')
    let fp := (body.dropWhile (fun c => c ≠ '.')).drop 1
    let n : Int := (digitsToNat ip : Int) * (10 : Int) ^ fp.length + (digitsToNat fp : Int)
    some (mkRat (if neg then -n else n) ((10 : Nat) ^ fp.length))
  else none

/-- Python slice `expr[pos:pos+n]` (shorter when it runs past the end). -/
def slice (expr : List Char) (pos n : Nat) : List Char :=
  (expr.drop pos).take n

/-- The literal produced by the number branch of `parse_factor`: `float(...)`
followed by the `is_integer()` normalization to `int`. -/
noncomputable def mkNumber (l : List Char) : Except EvalError Operand :=
  match pyFloat? l with
  | none => .error (.invalidNumberFormat l)
  | some q => .ok (if q.den = 1 then .intV q.num else .floatV (q : ℚ))

/-- Which of the five recursive-descent productions is running:
`parse_expression`, its `+`/`-` while loop, `parse_term`, its `*`/`/` while
loop, or `parse_factor`.  The loop tags carry the accumulated left operand. -/
inductive PFn where
  | pExpr : PFn
  | pExprLoop : Operand → PFn
  | pTerm : PFn
  | pTermLoop : Operand → PFn
  | pFactor : PFn

/-- Result of one production: `none` is fuel exhaustion, `some (.error e)` a
raised `ValueError`, and `some (.ok (v, p))` the Python `return value, pos`. -/
abbrev PRes := Option (Except EvalError (Operand × Nat))

/-- The mutually recursive parser of `evaluate_expression`, with the mutual
recursion folded into one function indexed by `PFn` and a fuel parameter that
every recursive call decrements by one.  Each branch transcribes the
corresponding lines of `advanced_math.py`. -/
noncomputable def parseRun (expr : List Char) : Nat → PFn → Nat → PRes
  | 0, _, _ => none
  | fuel + 1, .pExpr, pos =>
    match parseRun expr fuel .pTerm pos with
    | none => none
    | some (.error e) => some (.error e)
    | some (.ok (v, p)) => parseRun expr fuel (.pExprLoop v) p
  | fuel + 1, .pExprLoop acc, pos =>
    match expr[pos]? with
    | none => some (.ok (acc, pos))
    | some c =>
      if c = '+' ∨ c = '-' then
        match parseRun expr fuel .pTerm (pos + 1) with
        | none => none
        | some (.error e) => some (.error e)
        | some (.ok (v, p)) =>
          match binary_operation acc v (String.mk [c]) with
          | .error e => some (.error e)
          | .ok w => parseRun expr fuel (.pExprLoop w) p
      else some (.ok (acc, pos))
  | fuel + 1, .pTerm, pos =>
    match parseRun expr fuel .pFactor pos with
    | none => none
    | some (.error e) => some (.error e)
    | some (.ok (v, p)) => parseRun expr fuel (.pTermLoop v) p
  | fuel + 1, .pTermLoop acc, pos =>
    match expr[pos]? with
    | none => some (.ok (acc, pos))
    | some c =>
      if c = '*' ∨ c = '/' then
        match parseRun expr fuel .pFactor (pos + 1) with
        | none => none
        | some (.error e) => some (.error e)
        | some (.ok (v, p)) =>
          match binary_operation acc v (String.mk [c]) with
          | .error e => some (.error e)
          | .ok w => parseRun expr fuel (.pTermLoop w) p
      else some (.ok (acc, pos))
  | fuel + 1, .pFactor, pos =>
    if pos < expr.length ∧ slice expr pos 4 = "sqrt".data then
      -- sqrt branch of parse_factor
      if expr[pos + 4]? = some '(' then
        match parseRun expr fuel .pExpr (pos + 5) with
        | none => none
        | some (.error e) => some (.error e)
        | some (.ok (arg, p)) =>
          if expr[p]? = some ')' then
            match unary_operation arg "sqrt" with
            | .error e => some (.error e)
            | .ok v => some (.ok (v, p + 1))
          else some (.error .missingCloseParenSqrt)
      else some (.error .sqrtRequiresParens)
    else if pos < expr.length ∧ slice expr pos 3 = "log".data then
      -- log branch of parse_factor; note the swapped call
      -- binary_operation(value, base, 'log')
      if expr[pos + 3]? = some '(' then
        match parseRun expr fuel .pExpr (pos + 4) with
        | none => none
        | some (.error e) => some (.error e)
        | some (.ok (base, p)) =>
          if expr[p]? = some ',' then
            match parseRun expr fuel .pExpr (p + 1) with
            | none => none
            | some (.error e) => some (.error e)
            | some (.ok (value, p2)) =>
              if expr[p2]? = some ')' then
                match binary_operation value base "log" with
                | .error e => some (.error e)
                | .ok v => some (.ok (v, p2 + 1))
              else some (.error .missingCloseParenLog)
          else some (.error .missingArgSeparator)
      else some (.error .logRequiresParens)
    else if expr[pos]? = some '(' then
      -- parenthesized expression, with the post-parenthesis `**` check
      match parseRun expr fuel .pExpr (pos + 1) with
      | none => none
      | some (.error e) => some (.error e)
      | some (.ok (v, p)) =>
        if expr[p]? = some ')' then
          if p + 2 < expr.length ∧ slice expr (p + 1) 2 = "**".data then
            match parseRun expr fuel .pFactor (p + 3) with
            | none => none
            | some (.error e) => some (.error e)
            | some (.ok (exponent, q)) =>
              match binary_operation v exponent "**" with
              | .error e => some (.error e)
              | .ok w => some (.ok (w, q))
          else some (.ok (v, p + 1))
        else some (.error .missingCloseParen)
    else
      -- number branch, with the post-number `**` check
      let pos1 := if expr[pos]? = some '-' then pos + 1 else pos
      let pos2 := pos1 + ((expr.drop pos1).takeWhile isNumChar).length
      if pos = pos2 then some (.error (.expectedNumber pos2))
      else
        match mkNumber (slice expr pos (pos2 - pos)) with
        | .error e => some (.error e)
        | .ok num =>
          if pos2 + 1 < expr.length ∧ slice expr pos2 2 = "**".data then
            match parseRun expr fuel .pFactor (pos2 + 2) with
            | none => none
            | some (.error e) => some (.error e)
            | some (.ok (exponent, q)) =>
              match binary_operation num exponent "**" with
              | .error e => some (.error e)
              | .ok w => some (.ok (w, q))
          else some (.ok (num, pos2))

/-- The fuel `evaluate_expression` hands to the parser; proved sufficient for
every input. -/
def fuelFor (n : Nat) : Nat := 3 * n + 3

/-- Python function evaluate_expression from advanced_math.py: `replace(" ", "")` (spaces
only), the empty check, the top-level parse, and the trailing-input check. -/
noncomputable def evaluate_expression (input : String) : Except EvalError Operand :=
  let expr := input.data.filter (fun c => c ≠ ' ')
  if expr = [] then .error .emptyExpression
  else
    match parseRun expr (fuelFor expr.length) .pExpr 0 with
    | none => .error .outOfFuel
    | some (.error e) => .error e
    | some (.ok (result, pos)) =>
      if pos < expr.length then .error (.unexpectedChar pos)
      else .ok result

/-- The two operator while loops may return without consuming input; the
three productions proper always consume at least one character. -/
def PFn.isLoop : PFn → Bool
  | .pExprLoop _ => true
  | .pTermLoop _ => true
  | _ => false

/-- Fuel required by each production: the `expression -> term -> factor`
chain passes through positions without consuming, so the tiers need 3, 2, 1
extra units on top of three units per unconsumed character. -/
def needOffset : PFn → Nat
  | .pExpr => 3
  | .pExprLoop _ => 2
  | .pTerm => 2
  | .pTermLoop _ => 1
  | .pFactor => 1

/-- The preprocessing the source actually performs: `replace(" ", "")`, i.e.
removal of space characters only. -/
def stripSpaces (s : String) : String :=
  String.mk (s.data.filter (fun c => c ≠ ' '))

/-- Modelled from the spec (claim C3's reading): removal of every whitespace
character, not only spaces.  Compared against the source's space-only
`stripSpaces` to refute the claim. -/
def stripAllWhitespace (s : String) : String :=
  String.mk (s.data.filter (fun c => ¬ c.isWhitespace))

/-- The spec groups the five parenthesis-shaped failures (three missing
closing parentheses, two missing opening parentheses after a function name)
as parenthesis errors. -/
def EvalError.isParenthesisError : EvalError → Bool
  | .missingCloseParenSqrt => true
  | .missingCloseParenLog => true
  | .missingCloseParen => true
  | .sqrtRequiresParens => true
  | .logRequiresParens => true
  | _ => false

section RealFacts

private lemma logb_cast_eight_two :
    Real.logb ((8 : ℤ) : ℝ) ((2 : ℤ) : ℝ) = 1 / 3 := by
  have h2 : (0 : ℝ) < Real.log 2 := Real.log_pos (by norm_num)
  have h8 : Real.log 8 = 3 * Real.log 2 := by
    rw [show (8 : ℝ) = 2 ^ (3 : ℕ) by norm_num, Real.log_pow]
    push_cast
    ring
  have : Real.logb (8 : ℝ) (2 : ℝ) = 1 / 3 := by
    rw [Real.logb, h8]
    field_simp
    ring
  push_cast
  exact this

private lemma logb_cast_five_one :
    Real.logb ((5 : ℤ) : ℝ) ((1 : ℤ) : ℝ) = 0 := by
  push_cast
  exact Real.logb_one

private lemma sqrt_cast_four : Real.sqrt ((4 : ℤ) : ℝ) = 2 := by
  push_cast
  rw [show (4 : ℝ) = 2 ^ 2 by norm_num, Real.sqrt_sq (by norm_num : (0 : ℝ) ≤ 2)]

end RealFacts

section DispatcherFacts

lemma Operand.eqZeroB_iff (a : Operand) (h : a.isNum = true) :
    a.eqZeroB = true ↔ a.toR = 0 := by
  cases a with
  | intV n => simp [Operand.eqZeroB, Operand.toR]
  | floatV x => simp [Operand.eqZeroB, Operand.toR]
  | strV s => simp [Operand.isNum] at h

lemma Operand.ltZeroB_iff (a : Operand) (h : a.isNum = true) :
    a.ltZeroB = true ↔ a.toR < 0 := by
  cases a with
  | intV n => simp [Operand.ltZeroB, Operand.toR]
  | floatV x => simp [Operand.ltZeroB, Operand.toR]
  | strV s => simp [Operand.isNum] at h

lemma binary_operation_div_eq (a b : Operand) (ha : a.isNum = true)
    (hb : b.isNum = true) :
    binary_operation a b "/" =
      if b.eqZeroB then .error .divisionByZero
      else .ok (.floatV (a.toR / b.toR)) := by
  cases a with
  | strV s => simp [Operand.isNum] at ha
  | intV n =>
    cases b with
    | strV s => simp [Operand.isNum] at hb
    | intV m => rfl
    | floatV x => rfl
  | floatV x =>
    cases b with
    | strV s => simp [Operand.isNum] at hb
    | intV m => rfl
    | floatV y => rfl

lemma unary_operation_sqrt_eq (a : Operand) (ha : a.isNum = true) :
    unary_operation a "sqrt" =
      if a.ltZeroB then .error .sqrtNegative
      else .ok (.floatV (Real.sqrt a.toR)) := by
  cases a with
  | strV s => simp [Operand.isNum] at ha
  | intV n => rfl
  | floatV x => rfl

end DispatcherFacts

/-- C1: the evaluator passes `binary_operation(value, base, 'log')` while the
dispatcher validates its first argument as the base and returns
`math.log(b, a)`, so `evaluate("log(2, 8)")` returns `logb 8 2 = 1/3`, not
the claimed `3`: the (base, value) argument mapping is not preserved. -/
theorem c1_log_swapped_arguments :
    evaluate_expression "log(2, 8)" = .ok (.floatV (1 / 3)) ∧
      ((1 : ℝ) / 3) ≠ 3 := by
  constructor
  · have h : evaluate_expression "log(2, 8)" =
        .ok (.floatV (Real.logb ((8 : ℤ) : ℝ) ((2 : ℤ) : ℝ))) := by rfl
    rw [h, logb_cast_eight_two]
  · norm_num

/-- C2 counterexample: `evaluate("sqrt(4)")` returns the float 2.0, not the
integer 2, so the claimed result-value normalization does not happen. -/
theorem c2_sqrt_float_counterexample :
    evaluate_expression "sqrt(4)" = .ok (.floatV 2) ∧
      evaluate_expression "sqrt(4)" ≠ .ok (.intV 2) := by
  have h : evaluate_expression "sqrt(4)" =
      .ok (.floatV (Real.sqrt ((4 : ℤ) : ℝ))) := by rfl
  rw [h, sqrt_cast_four]
  refine ⟨rfl, fun hc => ?_⟩
  cases Except.ok.inj hc

/-- C2 amended: only numeric literals with no fractional part are normalized
to integers (at parse time); operation results are not, so
`evaluate("sqrt(4)")` is the float 2.0 while `evaluate("4.0")` is the
integer 4. -/
theorem c2_literal_normalization :
    evaluate_expression "sqrt(4)" = .ok (.floatV 2) ∧
      evaluate_expression "4.0" = .ok (.intV 4) := by
  have h : evaluate_expression "sqrt(4)" =
      .ok (.floatV (Real.sqrt ((4 : ℤ) : ℝ))) := by rfl
  rw [h, sqrt_cast_four]
  exact ⟨rfl, by rfl⟩

/-- C3 counterexample: the source removes only space characters, so a tab is
not stripped: `evaluate("1\t0")` is an error while evaluating the
whitespace-free text `"10"` yields 10. -/
theorem c3_tab_counterexample :
    evaluate_expression "1\t0" ≠ evaluate_expression (stripAllWhitespace "1\t0") := by
  have h1 : evaluate_expression "1\t0" = .error (.unexpectedChar 1) := by rfl
  have h2 : stripAllWhitespace "1\t0" = "10" := by rfl
  have h3 : evaluate_expression "10" = .ok (.intV 10) := by rfl
  rw [h1, h2, h3]
  intro h
  cases h

/-- C3 amended: for every input string, `evaluate` behaves exactly as
`evaluate` of the input with every SPACE character removed (spaces are
stripped even inside would-be tokens, so `evaluate("1 0") = 10`); other
whitespace characters are not stripped. -/
theorem c3_space_stripping :
    (∀ s : String, evaluate_expression s = evaluate_expression (stripSpaces s)) ∧
      evaluate_expression "1 0" = .ok (.intV 10) := by
  refine ⟨fun s => ?_, by rfl⟩
  have h : (stripSpaces s).data.filter (fun c => c ≠ ' ') =
      s.data.filter (fun c => c ≠ ' ') := by
    simp [stripSpaces, List.filter_filter]
  simp only [evaluate_expression, h]

/-- C3 witness: the amended space-stripping equality at a concrete input. -/
theorem c3_space_stripping_witness :
    evaluate_expression "1 0" = evaluate_expression (stripSpaces "1 0") :=
  c3_space_stripping.1 "1 0"

/-- C4: with the swapped argument passing, the code validates the VALUE
against the base conditions and vice versa, so `evaluate("log(1, 5)")`
(base 1, which the claim says must fail with DomainError) succeeds and
returns `logb 5 1 = 0`. -/
theorem c4_log_base_one_accepted :
    evaluate_expression "log(1, 5)" = .ok (.floatV 0) := by
  have h : evaluate_expression "log(1, 5)" =
      .ok (.floatV (Real.logb ((5 : ℤ) : ℝ) ((1 : ℤ) : ℝ))) := by rfl
  rw [h, logb_cast_five_one]

/-- C5: precedence and associativity: `2 + 3 * 4 = 14`, `(2 + 3) * 4 = 20`,
and `**` is right-associative: `2 ** 3 ** 2 = 2 ** (3 ** 2) = 512`. -/
theorem c5_precedence_associativity :
    evaluate_expression "2 + 3 * 4" = .ok (.intV 14) ∧
      evaluate_expression "(2 + 3) * 4" = .ok (.intV 20) ∧
      evaluate_expression "2 ** 3 ** 2" = .ok (.intV 512) :=
  ⟨by rfl, by rfl, by rfl⟩

/-- C6: unary minus is consumed as part of the numeric literal
(`5 - -3 = 8`, `-5 * -3 = 15`), and a minus not starting a numeric literal,
as in `-(2 + 3)`, is a malformed-number error (`Invalid number format: -`),
not a negation of the following sub-expression. -/
theorem c6_unary_minus_literal :
    evaluate_expression "5 - -3" = .ok (.intV 8) ∧
      evaluate_expression "-5 * -3" = .ok (.intV 15) ∧
      evaluate_expression "-(2 + 3)" = .error (.invalidNumberFormat ['-']) ∧
      EvalError.isMalformedNumber (.invalidNumberFormat ['-']) = true :=
  ⟨by rfl, by rfl, by rfl, by rfl⟩

/-- C7: dispatcher domain errors propagate unmodified: `5 / 0` fails with
the division-by-zero error and `sqrt(-4)` with the (domain) negative-sqrt
error; at the dispatcher, a zero divisor is the sole failure condition of `/`
on numeric operands, and `sqrt` fails exactly on negative numeric arguments,
otherwise returning the non-negative square root. -/
theorem c7_domain_error_propagation :
    evaluate_expression "5 / 0" = .error .divisionByZero ∧
      evaluate_expression "sqrt(-4)" = .error .sqrtNegative ∧
      EvalError.isDomainError .sqrtNegative = true ∧
      (∀ a b : Operand, a.isNum = true → b.isNum = true →
        (binary_operation a b "/" = .error .divisionByZero ↔ b.toR = 0)) ∧
      (∀ a b : Operand, a.isNum = true → b.isNum = true → b.toR ≠ 0 →
        binary_operation a b "/" = .ok (.floatV (a.toR / b.toR))) ∧
      (∀ a : Operand, a.isNum = true →
        (unary_operation a "sqrt" = .error .sqrtNegative ↔ a.toR < 0)) ∧
      (∀ a : Operand, a.isNum = true → 0 ≤ a.toR →
        unary_operation a "sqrt" = .ok (.floatV (Real.sqrt a.toR)) ∧
          0 ≤ Real.sqrt a.toR) := by
  refine ⟨by rfl, by rfl, by rfl, ?_, ?_, ?_, ?_⟩
  · intro a b ha hb
    rw [binary_operation_div_eq a b ha hb, ← Operand.eqZeroB_iff b hb]
    cases hz : b.eqZeroB <;> simp [hz]
  · intro a b ha hb hz
    rw [binary_operation_div_eq a b ha hb]
    have : b.eqZeroB = false := by
      cases hz2 : b.eqZeroB
      · rfl
      · exact absurd ((Operand.eqZeroB_iff b hb).mp hz2) hz
    simp [this]
  · intro a ha
    rw [unary_operation_sqrt_eq a ha, ← Operand.ltZeroB_iff a ha]
    cases hz : a.ltZeroB <;> simp [hz]
  · intro a ha hnn
    have : a.ltZeroB = false := by
      cases hz : a.ltZeroB
      · rfl
      · exact absurd ((Operand.ltZeroB_iff a ha).mp hz) (not_lt.mpr hnn)
    rw [unary_operation_sqrt_eq a ha]
    simp [this, Real.sqrt_nonneg]

/-- C7 witness: the dispatcher characterizations applied at concrete
operands. -/
theorem c7_domain_error_propagation_witness :
    (binary_operation (.intV 5) (.intV 0) "/" = .error .divisionByZero ↔
      (Operand.intV 0).toR = 0) ∧
      binary_operation (.intV 7) (.intV 2) "/" =
        .ok (.floatV ((Operand.intV 7).toR / (Operand.intV 2).toR)) ∧
      unary_operation (.intV 4) "sqrt" =
        .ok (.floatV (Real.sqrt (Operand.intV 4).toR)) := by
  have h := c7_domain_error_propagation
  exact ⟨h.2.2.2.1 (.intV 5) (.intV 0) rfl rfl,
    h.2.2.2.2.1 (.intV 7) (.intV 2) rfl rfl (by simp [Operand.toR]),
    (h.2.2.2.2.2.2 (.intV 4) rfl (by simp [Operand.toR])).1⟩

/-- C8: malformed input fails with the designated error kind: empty (also
after space removal) is the empty-expression error raised before parsing;
`(2 + 3` is a missing closing parenthesis; `2 + 3)` is trailing-input
rejection at position 3; `sqrt 4` (space stripped to `sqrt4`) is the
missing-parenthesis-after-function-name error. -/
theorem c8_malformed_inputs :
    evaluate_expression "" = .error .emptyExpression ∧
      (∀ s : String, s.data.filter (fun c => c ≠ ' ') = [] →
        evaluate_expression s = .error .emptyExpression) ∧
      evaluate_expression "(2 + 3" = .error .missingCloseParen ∧
      evaluate_expression "2 + 3)" = .error (.unexpectedChar 3) ∧
      evaluate_expression "sqrt 4" = .error .sqrtRequiresParens ∧
      EvalError.isParenthesisError .sqrtRequiresParens = true := by
  refine ⟨by rfl, ?_, by rfl, by rfl, by rfl, by rfl⟩
  intro s h
  simp only [evaluate_expression, h]
  rfl

/-- C8 witness: an all-spaces input is empty after space removal and fails
with the empty-expression error. -/
theorem c8_malformed_inputs_witness :
    evaluate_expression "   " = .error .emptyExpression :=
  c8_malformed_inputs.2.1 "   " (by rfl)

section StarStar

/-- A `parse_factor` call started on a `*` character always fails with
`Expected number`: `*` neither starts `sqrt`/`log`, nor is `(`, `-`, a digit
or a dot. -/
lemma parseRun_factor_at_star (expr : List Char) (fuel pos : Nat)
    (h : expr[pos]? = some '*') :
    parseRun expr (fuel + 1) .pFactor pos = some (.error (.expectedNumber pos)) := by
  obtain ⟨hlt, hget⟩ := List.getElem?_eq_some.mp h
  have hdrop : expr.drop pos = '*' :: expr.drop (pos + 1) := by
    rw [List.drop_eq_getElem_cons hlt, hget]
  have hs : "sqrt".data = ['s', 'q', 'r', 't'] := rfl
  have hl : "log".data = ['l', 'o', 'g'] := rfl
  have hn : isNumChar '*' = false := rfl
  simp [parseRun, slice, hdrop, hs, hl, h, hn]

/-- The `*`/`/` while loop of `parse_term`, positioned at `**`, consumes the
first `*` as a multiplication operator and then fails parsing the second `*`
as a factor. -/
lemma parseRun_termLoop_at_star_star (expr : List Char) (fuel : Nat)
    (acc : Operand) (pos : Nat) (h1 : expr[pos]? = some '*')
    (h2 : expr[pos + 1]? = some '*') :
    parseRun expr (fuel + 2) (.pTermLoop acc) pos =
      some (.error (.expectedNumber (pos + 1))) := by
  have hf := parseRun_factor_at_star expr fuel (pos + 1) h2
  rw [parseRun, h1]
  simp [hf]

end StarStar

/-- C9: `**` may follow only a parenthesized group or a bare number, never a
completed function call: whenever the parser's term loop stands on `**`
(which is where control is after a completed `sqrt(...)`/`log(...)` factor
followed by `**`), it fails with `Expected number` instead of exponentiating,
and concretely `sqrt(4) ** 2` and `log(8, 2) ** 2` are errors. -/
theorem c9_no_exponentiation_after_function_call :
    (∀ (expr : List Char) (fuel : Nat) (acc : Operand) (pos : Nat),
        expr[pos]? = some '*' → expr[pos + 1]? = some '*' →
        parseRun expr (fuel + 2) (.pTermLoop acc) pos =
          some (.error (.expectedNumber (pos + 1)))) ∧
      evaluate_expression "sqrt(4) ** 2" = .error (.expectedNumber 8) ∧
      evaluate_expression "log(8, 2) ** 2" = .error (.expectedNumber 9) :=
  ⟨parseRun_termLoop_at_star_star, by rfl, by rfl⟩

/-- C9 witness: the general term-loop fact applied on the stripped text of
`sqrt(4) ** 2` at the position just after the completed sqrt call. -/
theorem c9_no_exponentiation_after_function_call_witness :
    parseRun ("sqrt(4)**2".data) (10 + 2) (.pTermLoop (.floatV 2)) 7 =
      some (.error (.expectedNumber 8)) :=
  c9_no_exponentiation_after_function_call.1 ("sqrt(4)**2".data) 10
    (.floatV 2) 7 (by rfl) (by rfl)

private lemma bindPRes_ok {X : PRes} {K : Operand → Nat → PRes} {v : Operand}
    {p : Nat}
    (h : (match X with
          | none => none
          | some (Except.error e) => some (Except.error e)
          | some (Except.ok (w, q)) => K w q) = some (Except.ok (v, p))) :
    ∃ w q, X = some (Except.ok (w, q)) ∧ K w q = some (Except.ok (v, p)) := by
  match X with
  | none => cases h
  | some (Except.error e) => cases h
  | some (Except.ok (w, q)) => exact ⟨w, q, rfl, h⟩

private lemma bindOp_ok {X : Except EvalError Operand} {K : Operand → PRes}
    {v : Operand} {p : Nat}
    (h : (match X with
          | Except.error e => some (Except.error e)
          | Except.ok w => K w) = some (Except.ok (v, p))) :
    ∃ w, X = Except.ok w ∧ K w = some (Except.ok (v, p)) := by
  match X with
  | Except.error e => cases h
  | Except.ok w => exact ⟨w, rfl, h⟩

private lemma ok_inj {a : Operand} {q : Nat} {v : Operand} {p : Nat}
    (h : (some (Except.ok (a, q)) : PRes) = some (Except.ok (v, p))) :
    a = v ∧ q = p := by
  simp only [Option.some.injEq, Except.ok.injEq, Prod.mk.injEq] at h
  exact h

set_option maxHeartbeats 1000000 in
lemma parseRun_ok_progress (expr : List Char) :
    ∀ (fuel : Nat) (f : PFn) (pos p : Nat) (v : Operand),
      parseRun expr fuel f pos = some (.ok (v, p)) →
      pos ≤ p ∧ (f.isLoop = false → pos < p) := by
  intro fuel
  induction fuel with
  | zero =>
    intro f pos p v h
    cases h
  | succ fuel ih =>
    intro f pos p v h
    cases f with
    | pExpr =>
      simp only [parseRun] at h
      obtain ⟨w, p1, hT, h⟩ := bindPRes_ok h
      have h1 := ih .pTerm pos p1 w hT
      have h2 := ih (.pExprLoop w) p1 p v h
      exact ⟨le_trans h1.1 h2.1, fun _ => lt_of_lt_of_le (h1.2 rfl) h2.1⟩
    | pTerm =>
      simp only [parseRun] at h
      obtain ⟨w, p1, hT, h⟩ := bindPRes_ok h
      have h1 := ih .pFactor pos p1 w hT
      have h2 := ih (.pTermLoop w) p1 p v h
      exact ⟨le_trans h1.1 h2.1, fun _ => lt_of_lt_of_le (h1.2 rfl) h2.1⟩
    | pExprLoop acc =>
      simp only [parseRun] at h
      cases hC : expr[pos]? with
      | none =>
        simp only [hC] at h
        obtain ⟨-, h2⟩ := ok_inj h
        subst h2
        exact ⟨le_refl _, fun hf => by cases hf⟩
      | some c =>
        simp only [hC] at h
        by_cases hop : c = '+' ∨ c = '-'
        · rw [if_pos hop] at h
          obtain ⟨w, p1, hT, h⟩ := bindPRes_ok h
          obtain ⟨u, hB, h⟩ := bindOp_ok h
          have h1 := ih .pTerm (pos + 1) p1 w hT
          have h2 := ih (.pExprLoop u) p1 p v h
          have h3 := le_trans h1.1 h2.1
          exact ⟨by omega, fun hf => by cases hf⟩
        · rw [if_neg hop] at h
          obtain ⟨-, h2⟩ := ok_inj h
          subst h2
          exact ⟨le_refl _, fun hf => by cases hf⟩
    | pTermLoop acc =>
      simp only [parseRun] at h
      cases hC : expr[pos]? with
      | none =>
        simp only [hC] at h
        obtain ⟨-, h2⟩ := ok_inj h
        subst h2
        exact ⟨le_refl _, fun hf => by cases hf⟩
      | some c =>
        simp only [hC] at h
        by_cases hop : c = '*' ∨ c = '/'
        · rw [if_pos hop] at h
          obtain ⟨w, p1, hT, h⟩ := bindPRes_ok h
          obtain ⟨u, hB, h⟩ := bindOp_ok h
          have h1 := ih .pFactor (pos + 1) p1 w hT
          have h2 := ih (.pTermLoop u) p1 p v h
          have h3 := le_trans h1.1 h2.1
          exact ⟨by omega, fun hf => by cases hf⟩
        · rw [if_neg hop] at h
          obtain ⟨-, h2⟩ := ok_inj h
          subst h2
          exact ⟨le_refl _, fun hf => by cases hf⟩
    | pFactor =>
      simp only [parseRun] at h
      by_cases hsq : pos < expr.length ∧ slice expr pos 4 = "sqrt".data
      · rw [if_pos hsq] at h
        by_cases hp1 : expr[pos + 4]? = some '('
        · rw [if_pos hp1] at h
          obtain ⟨arg, p1, hE, h⟩ := bindPRes_ok h
          by_cases hcl : expr[p1]? = some ')'
          · rw [if_pos hcl] at h
            obtain ⟨u, hU, h⟩ := bindOp_ok h
            obtain ⟨-, h2⟩ := ok_inj h
            subst h2
            have h1 := ih .pExpr (pos + 5) p1 arg hE
            exact ⟨by omega, fun _ => by omega⟩
          · rw [if_neg hcl] at h; cases h
        · rw [if_neg hp1] at h; cases h
      · rw [if_neg hsq] at h
        by_cases hlg : pos < expr.length ∧ slice expr pos 3 = "log".data
        · rw [if_pos hlg] at h
          by_cases hp1 : expr[pos + 3]? = some '('
          · rw [if_pos hp1] at h
            obtain ⟨base, p1, hE, h⟩ := bindPRes_ok h
            by_cases hcm : expr[p1]? = some ','
            · rw [if_pos hcm] at h
              obtain ⟨value, p2, hE2, h⟩ := bindPRes_ok h
              by_cases hcl : expr[p2]? = some ')'
              · rw [if_pos hcl] at h
                obtain ⟨u, hB, h⟩ := bindOp_ok h
                obtain ⟨-, h2⟩ := ok_inj h
                subst h2
                have h1 := ih .pExpr (pos + 4) p1 base hE
                have h3 := ih .pExpr (p1 + 1) p2 value hE2
                exact ⟨by omega, fun _ => by omega⟩
              · rw [if_neg hcl] at h; cases h
            · rw [if_neg hcm] at h; cases h
          · rw [if_neg hp1] at h; cases h
        · rw [if_neg hlg] at h
          by_cases hpar : expr[pos]? = some '('
          · rw [if_pos hpar] at h
            obtain ⟨w, p1, hE, h⟩ := bindPRes_ok h
            have h1 := ih .pExpr (pos + 1) p1 w hE
            by_cases hcl : expr[p1]? = some ')'
            · rw [if_pos hcl] at h
              by_cases hst : p1 + 2 < expr.length ∧
                  slice expr (p1 + 1) 2 = "**".data
              · rw [if_pos hst] at h
                obtain ⟨ex, q, hF, h⟩ := bindPRes_ok h
                obtain ⟨u, hB, h⟩ := bindOp_ok h
                obtain ⟨-, h2⟩ := ok_inj h
                subst h2
                have h3 := ih .pFactor (p1 + 3) q ex hF
                exact ⟨by omega, fun _ => by omega⟩
              · rw [if_neg hst] at h
                obtain ⟨-, h2⟩ := ok_inj h
                subst h2
                exact ⟨by omega, fun _ => by omega⟩
            · rw [if_neg hcl] at h; cases h
          · rw [if_neg hpar] at h
            by_cases hmin : expr[pos]? = some '-'
            · rw [if_pos hmin] at h
              by_cases hz :
                  pos = pos + 1 + ((expr.drop (pos + 1)).takeWhile isNumChar).length
              · rw [if_pos hz] at h; cases h
              · rw [if_neg hz] at h
                obtain ⟨num, hN, h⟩ := bindOp_ok h
                by_cases hst :
                    pos + 1 + ((expr.drop (pos + 1)).takeWhile isNumChar).length
                        + 1 < expr.length ∧
                      slice expr (pos + 1 +
                        ((expr.drop (pos + 1)).takeWhile isNumChar).length) 2 =
                        "**".data
                · rw [if_pos hst] at h
                  obtain ⟨ex, q, hF, h⟩ := bindPRes_ok h
                  obtain ⟨u, hB, h⟩ := bindOp_ok h
                  obtain ⟨-, h2⟩ := ok_inj h
                  subst h2
                  have h3 := ih .pFactor _ q ex hF
                  exact ⟨by omega, fun _ => by omega⟩
                · rw [if_neg hst] at h
                  obtain ⟨-, h2⟩ := ok_inj h
                  subst h2
                  exact ⟨by omega, fun _ => by omega⟩
            · rw [if_neg hmin] at h
              by_cases hz :
                  pos = pos + ((expr.drop pos).takeWhile isNumChar).length
              · rw [if_pos hz] at h; cases h
              · rw [if_neg hz] at h
                obtain ⟨num, hN, h⟩ := bindOp_ok h
                by_cases hst :
                    pos + ((expr.drop pos).takeWhile isNumChar).length
                        + 1 < expr.length ∧
                      slice expr (pos +
                        ((expr.drop pos).takeWhile isNumChar).length) 2 =
                        "**".data
                · rw [if_pos hst] at h
                  obtain ⟨ex, q, hF, h⟩ := bindPRes_ok h
                  obtain ⟨u, hB, h⟩ := bindOp_ok h
                  obtain ⟨-, h2⟩ := ok_inj h
                  subst h2
                  have h3 := ih .pFactor _ q ex hF
                  exact ⟨by omega, fun _ => by omega⟩
                · rw [if_neg hst] at h
                  obtain ⟨-, h2⟩ := ok_inj h
                  subst h2
                  exact ⟨by omega, fun _ => by omega⟩


set_option maxHeartbeats 1000000 in
lemma parseRun_fuel_sufficient (expr : List Char) :
    ∀ (fuel : Nat) (f : PFn) (pos : Nat),
      3 * (expr.length - pos) + needOffset f ≤ fuel →
      (parseRun expr fuel f pos).isSome = true := by
  intro fuel
  induction fuel with
  | zero =>
    intro f pos hle
    exfalso
    cases f <;> simp only [needOffset] at hle <;> omega
  | succ fuel ih =>
    intro f pos hle
    cases f with
    | pExpr =>
      simp only [needOffset] at hle
      simp only [parseRun]
      obtain ⟨r, hr⟩ := Option.isSome_iff_exists.mp
        (ih .pTerm pos (by simp only [needOffset]; omega))
      rw [hr]
      cases r with
      | error e => rfl
      | ok vp =>
        obtain ⟨w, p1⟩ := vp
        dsimp only
        have hp := (parseRun_ok_progress expr fuel .pTerm pos p1 w hr).2 rfl
        exact ih (.pExprLoop w) p1 (by simp only [needOffset]; omega)
    | pTerm =>
      simp only [needOffset] at hle
      simp only [parseRun]
      obtain ⟨r, hr⟩ := Option.isSome_iff_exists.mp
        (ih .pFactor pos (by simp only [needOffset]; omega))
      rw [hr]
      cases r with
      | error e => rfl
      | ok vp =>
        obtain ⟨w, p1⟩ := vp
        dsimp only
        have hp := (parseRun_ok_progress expr fuel .pFactor pos p1 w hr).2 rfl
        exact ih (.pTermLoop w) p1 (by simp only [needOffset]; omega)
    | pExprLoop acc =>
      simp only [needOffset] at hle
      simp only [parseRun]
      cases hC : expr[pos]? with
      | none => rfl
      | some c =>
        have hb := (List.getElem?_eq_some.mp hC).1
        dsimp only
        by_cases hop : c = '+' ∨ c = '-'
        · rw [if_pos hop]
          obtain ⟨r, hr⟩ := Option.isSome_iff_exists.mp
            (ih .pTerm (pos + 1) (by simp only [needOffset]; omega))
          rw [hr]
          cases r with
          | error e => rfl
          | ok vp =>
            obtain ⟨w, p1⟩ := vp
            dsimp only
            have hp := (parseRun_ok_progress expr fuel .pTerm (pos + 1) p1 w hr).2 rfl
            cases hB : binary_operation acc w (String.mk [c]) with
            | error e => rfl
            | ok u =>
              exact ih (.pExprLoop u) p1 (by simp only [needOffset]; omega)
        · rw [if_neg hop]; rfl
    | pTermLoop acc =>
      simp only [needOffset] at hle
      simp only [parseRun]
      cases hC : expr[pos]? with
      | none => rfl
      | some c =>
        have hb := (List.getElem?_eq_some.mp hC).1
        dsimp only
        by_cases hop : c = '*' ∨ c = '/'
        · rw [if_pos hop]
          obtain ⟨r, hr⟩ := Option.isSome_iff_exists.mp
            (ih .pFactor (pos + 1) (by simp only [needOffset]; omega))
          rw [hr]
          cases r with
          | error e => rfl
          | ok vp =>
            obtain ⟨w, p1⟩ := vp
            dsimp only
            have hp := (parseRun_ok_progress expr fuel .pFactor (pos + 1) p1 w hr).2 rfl
            cases hB : binary_operation acc w (String.mk [c]) with
            | error e => rfl
            | ok u =>
              exact ih (.pTermLoop u) p1 (by simp only [needOffset]; omega)
        · rw [if_neg hop]; rfl
    | pFactor =>
      simp only [needOffset] at hle
      simp only [parseRun]
      by_cases hsq : pos < expr.length ∧ slice expr pos 4 = "sqrt".data
      · rw [if_pos hsq]
        by_cases hp1 : expr[pos + 4]? = some '('
        · rw [if_pos hp1]
          have hb := (List.getElem?_eq_some.mp hp1).1
          obtain ⟨r, hr⟩ := Option.isSome_iff_exists.mp
            (ih .pExpr (pos + 5) (by simp only [needOffset]; omega))
          rw [hr]
          cases r with
          | error e => rfl
          | ok vp =>
            obtain ⟨arg, p1⟩ := vp
            dsimp only
            by_cases hcl : expr[p1]? = some ')'
            · rw [if_pos hcl]
              cases hU : unary_operation arg "sqrt" with
              | error e => rfl
              | ok u => rfl
            · rw [if_neg hcl]; rfl
        · rw [if_neg hp1]; rfl
      · rw [if_neg hsq]
        by_cases hlg : pos < expr.length ∧ slice expr pos 3 = "log".data
        · rw [if_pos hlg]
          by_cases hp1 : expr[pos + 3]? = some '('
          · rw [if_pos hp1]
            have hb := (List.getElem?_eq_some.mp hp1).1
            obtain ⟨r, hr⟩ := Option.isSome_iff_exists.mp
              (ih .pExpr (pos + 4) (by simp only [needOffset]; omega))
            rw [hr]
            cases r with
            | error e => rfl
            | ok vp =>
              obtain ⟨base, p1⟩ := vp
              dsimp only
              have hpr := (parseRun_ok_progress expr fuel .pExpr (pos + 4) p1 base hr).2 rfl
              by_cases hcm : expr[p1]? = some ','
              · rw [if_pos hcm]
                have hb2 := (List.getElem?_eq_some.mp hcm).1
                obtain ⟨r2, hr2⟩ := Option.isSome_iff_exists.mp
                  (ih .pExpr (p1 + 1) (by simp only [needOffset]; omega))
                rw [hr2]
                cases r2 with
                | error e => rfl
                | ok vp2 =>
                  obtain ⟨value, p2⟩ := vp2
                  dsimp only
                  by_cases hcl : expr[p2]? = some ')'
                  · rw [if_pos hcl]
                    cases hB : binary_operation value base "log" with
                    | error e => rfl
                    | ok u => rfl
                  · rw [if_neg hcl]; rfl
              · rw [if_neg hcm]; rfl
          · rw [if_neg hp1]; rfl
        · rw [if_neg hlg]
          by_cases hpar : expr[pos]? = some '('
          · rw [if_pos hpar]
            have hb := (List.getElem?_eq_some.mp hpar).1
            obtain ⟨r, hr⟩ := Option.isSome_iff_exists.mp
              (ih .pExpr (pos + 1) (by simp only [needOffset]; omega))
            rw [hr]
            cases r with
            | error e => rfl
            | ok vp =>
              obtain ⟨w, p1⟩ := vp
              dsimp only
              have hpr := (parseRun_ok_progress expr fuel .pExpr (pos + 1) p1 w hr).2 rfl
              by_cases hcl : expr[p1]? = some ')'
              · rw [if_pos hcl]
                by_cases hst : p1 + 2 < expr.length ∧
                    slice expr (p1 + 1) 2 = "**".data
                · rw [if_pos hst]
                  obtain ⟨hb2, -⟩ := hst
                  obtain ⟨r2, hr2⟩ := Option.isSome_iff_exists.mp
                    (ih .pFactor (p1 + 3) (by simp only [needOffset]; omega))
                  rw [hr2]
                  cases r2 with
                  | error e => rfl
                  | ok vp2 =>
                    obtain ⟨ex, q⟩ := vp2
                    dsimp only
                    cases hB : binary_operation w ex "**" with
                    | error e => rfl
                    | ok u => rfl
                · rw [if_neg hst]; rfl
              · rw [if_neg hcl]; rfl
          · rw [if_neg hpar]
            by_cases hmin : expr[pos]? = some '-'
            · rw [if_pos hmin]
              have hb := (List.getElem?_eq_some.mp hmin).1
              by_cases hz :
                  pos = pos + 1 + ((expr.drop (pos + 1)).takeWhile isNumChar).length
              · rw [if_pos hz]; rfl
              · rw [if_neg hz]
                cases hN : mkNumber (slice expr pos
                    (pos + 1 + ((expr.drop (pos + 1)).takeWhile isNumChar).length
                      - pos)) with
                | error e => rfl
                | ok num =>
                  dsimp only
                  by_cases hst :
                      pos + 1 + ((expr.drop (pos + 1)).takeWhile isNumChar).length
                          + 1 < expr.length ∧
                        slice expr (pos + 1 +
                          ((expr.drop (pos + 1)).takeWhile isNumChar).length) 2 =
                          "**".data
                  · rw [if_pos hst]
                    obtain ⟨hb2, -⟩ := hst
                    obtain ⟨r2, hr2⟩ := Option.isSome_iff_exists.mp
                      (ih .pFactor (pos + 1 +
                        ((expr.drop (pos + 1)).takeWhile isNumChar).length + 2)
                        (by simp only [needOffset]; omega))
                    rw [hr2]
                    cases r2 with
                    | error e => rfl
                    | ok vp2 =>
                      obtain ⟨ex, q⟩ := vp2
                      dsimp only
                      cases hB : binary_operation num ex "**" with
                      | error e => rfl
                      | ok u => rfl
                  · rw [if_neg hst]; rfl
            · rw [if_neg hmin]
              by_cases hz :
                  pos = pos + ((expr.drop pos).takeWhile isNumChar).length
              · rw [if_pos hz]; rfl
              · rw [if_neg hz]
                cases hN : mkNumber (slice expr pos
                    (pos + ((expr.drop pos).takeWhile isNumChar).length - pos)) with
                | error e => rfl
                | ok num =>
                  dsimp only
                  by_cases hst :
                      pos + ((expr.drop pos).takeWhile isNumChar).length
                          + 1 < expr.length ∧
                        slice expr (pos +
                          ((expr.drop pos).takeWhile isNumChar).length) 2 =
                          "**".data
                  · rw [if_pos hst]
                    obtain ⟨hb2, -⟩ := hst
                    obtain ⟨r2, hr2⟩ := Option.isSome_iff_exists.mp
                      (ih .pFactor (pos +
                        ((expr.drop pos).takeWhile isNumChar).length + 2)
                        (by simp only [needOffset]; omega))
                    rw [hr2]
                    cases r2 with
                    | error e => rfl
                    | ok vp2 =>
                      obtain ⟨ex, q⟩ := vp2
                      dsimp only
                      cases hB : binary_operation num ex "**" with
                      | error e => rfl
                      | ok u => rfl
                  · rw [if_neg hst]; rfl


private lemma bindPRes_error {X : PRes} {K : Operand → Nat → PRes} {e : EvalError}
    (h : (match X with
          | none => none
          | some (Except.error e) => some (Except.error e)
          | some (Except.ok (w, q)) => K w q) = some (Except.error e)) :
    X = some (Except.error e) ∨
      ∃ w q, X = some (Except.ok (w, q)) ∧ K w q = some (Except.error e) := by
  match X with
  | none => cases h
  | some (Except.error e2) => cases h; exact Or.inl rfl
  | some (Except.ok (w, q)) => exact Or.inr ⟨w, q, rfl, h⟩

private lemma bindOp_error {X : Except EvalError Operand} {K : Operand → PRes}
    {e : EvalError}
    (h : (match X with
          | Except.error e => some (Except.error e)
          | Except.ok w => K w) = some (Except.error e)) :
    X = Except.error e ∨ ∃ w, X = Except.ok w ∧ K w = some (Except.error e) := by
  match X with
  | Except.error e2 => cases h; exact Or.inl rfl
  | Except.ok w => exact Or.inr ⟨w, rfl, h⟩

private lemma bindRes_error {X : Except EvalError Operand}
    {K : Operand → Except EvalError Operand} {e : EvalError}
    (h : (match X with
          | Except.error e => Except.error e
          | Except.ok w => K w) = Except.error e) :
    X = Except.error e ∨ ∃ w, X = Except.ok w ∧ K w = Except.error e := by
  match X with
  | Except.error e2 => cases h; exact Or.inl rfl
  | Except.ok w => exact Or.inr ⟨w, rfl, h⟩

lemma resolveConst_not_outOfFuel (a : Operand) :
    resolveConst a ≠ .error .outOfFuel := by
  intro h
  cases a <;> simp only [resolveConst] at h
  all_goals repeat' split at h
  all_goals cases h

lemma binary_operation_not_outOfFuel (a b : Operand) (op : String) :
    binary_operation a b op ≠ .error .outOfFuel := by
  intro h
  simp only [binary_operation] at h
  rcases bindRes_error h with hA | ⟨a2, hA, h⟩
  · exact resolveConst_not_outOfFuel a hA
  · rcases bindRes_error h with hB | ⟨b2, hB, h⟩
    · exact resolveConst_not_outOfFuel b hB
    · repeat' split at h
      all_goals cases h

lemma unary_operation_not_outOfFuel (a : Operand) (op : String) :
    unary_operation a op ≠ .error .outOfFuel := by
  intro h
  simp only [unary_operation] at h
  rcases bindRes_error h with hA | ⟨a2, hA, h⟩
  · exact resolveConst_not_outOfFuel a hA
  · repeat' split at h
    all_goals cases h

lemma mkNumber_not_outOfFuel (l : List Char) :
    mkNumber l ≠ .error .outOfFuel := by
  intro h
  simp only [mkNumber] at h
  split at h <;> cases h

set_option maxHeartbeats 1000000 in
lemma parseRun_error_not_outOfFuel (expr : List Char) :
    ∀ (fuel : Nat) (f : PFn) (pos : Nat),
      parseRun expr fuel f pos ≠ some (.error .outOfFuel) := by
  intro fuel
  induction fuel with
  | zero =>
    intro f pos h
    cases h
  | succ fuel ih =>
    intro f pos h
    cases f with
    | pExpr =>
      simp only [parseRun] at h
      rcases bindPRes_error h with hT | ⟨w, p1, hT, h⟩
      · exact ih .pTerm pos hT
      · exact ih (.pExprLoop w) p1 h
    | pTerm =>
      simp only [parseRun] at h
      rcases bindPRes_error h with hT | ⟨w, p1, hT, h⟩
      · exact ih .pFactor pos hT
      · exact ih (.pTermLoop w) p1 h
    | pExprLoop acc =>
      simp only [parseRun] at h
      cases hC : expr[pos]? with
      | none => simp only [hC] at h; cases h
      | some c =>
        simp only [hC] at h
        by_cases hop : c = '+' ∨ c = '-'
        · rw [if_pos hop] at h
          rcases bindPRes_error h with hT | ⟨w, p1, hT, h⟩
          · exact ih .pTerm (pos + 1) hT
          · rcases bindOp_error h with hB | ⟨u, hB, h⟩
            · exact binary_operation_not_outOfFuel acc w (String.mk [c]) hB
            · exact ih (.pExprLoop u) p1 h
        · rw [if_neg hop] at h; cases h
    | pTermLoop acc =>
      simp only [parseRun] at h
      cases hC : expr[pos]? with
      | none => simp only [hC] at h; cases h
      | some c =>
        simp only [hC] at h
        by_cases hop : c = '*' ∨ c = '/'
        · rw [if_pos hop] at h
          rcases bindPRes_error h with hT | ⟨w, p1, hT, h⟩
          · exact ih .pFactor (pos + 1) hT
          · rcases bindOp_error h with hB | ⟨u, hB, h⟩
            · exact binary_operation_not_outOfFuel acc w (String.mk [c]) hB
            · exact ih (.pTermLoop u) p1 h
        · rw [if_neg hop] at h; cases h
    | pFactor =>
      simp only [parseRun] at h
      by_cases hsq : pos < expr.length ∧ slice expr pos 4 = "sqrt".data
      · rw [if_pos hsq] at h
        by_cases hp1 : expr[pos + 4]? = some '('
        · rw [if_pos hp1] at h
          rcases bindPRes_error h with hE | ⟨arg, p1, hE, h⟩
          · exact ih .pExpr (pos + 5) hE
          · by_cases hcl : expr[p1]? = some ')'
            · rw [if_pos hcl] at h
              rcases bindOp_error h with hU | ⟨u, hU, h⟩
              · exact unary_operation_not_outOfFuel arg "sqrt" hU
              · cases h
            · rw [if_neg hcl] at h; cases h
        · rw [if_neg hp1] at h; cases h
      · rw [if_neg hsq] at h
        by_cases hlg : pos < expr.length ∧ slice expr pos 3 = "log".data
        · rw [if_pos hlg] at h
          by_cases hp1 : expr[pos + 3]? = some '('
          · rw [if_pos hp1] at h
            rcases bindPRes_error h with hE | ⟨base, p1, hE, h⟩
            · exact ih .pExpr (pos + 4) hE
            · by_cases hcm : expr[p1]? = some ','
              · rw [if_pos hcm] at h
                rcases bindPRes_error h with hE2 | ⟨value, p2, hE2, h⟩
                · exact ih .pExpr (p1 + 1) hE2
                · by_cases hcl : expr[p2]? = some ')'
                  · rw [if_pos hcl] at h
                    rcases bindOp_error h with hB | ⟨u, hB, h⟩
                    · exact binary_operation_not_outOfFuel value base "log" hB
                    · cases h
                  · rw [if_neg hcl] at h; cases h
              · rw [if_neg hcm] at h; cases h
          · rw [if_neg hp1] at h; cases h
        · rw [if_neg hlg] at h
          by_cases hpar : expr[pos]? = some '('
          · rw [if_pos hpar] at h
            rcases bindPRes_error h with hE | ⟨w, p1, hE, h⟩
            · exact ih .pExpr (pos + 1) hE
            · by_cases hcl : expr[p1]? = some ')'
              · rw [if_pos hcl] at h
                by_cases hst : p1 + 2 < expr.length ∧
                    slice expr (p1 + 1) 2 = "**".data
                · rw [if_pos hst] at h
                  rcases bindPRes_error h with hF | ⟨ex, q, hF, h⟩
                  · exact ih .pFactor (p1 + 3) hF
                  · rcases bindOp_error h with hB | ⟨u, hB, h⟩
                    · exact binary_operation_not_outOfFuel w ex "**" hB
                    · cases h
                · rw [if_neg hst] at h; cases h
              · rw [if_neg hcl] at h; cases h
          · rw [if_neg hpar] at h
            by_cases hmin : expr[pos]? = some '-'
            · rw [if_pos hmin] at h
              by_cases hz :
                  pos = pos + 1 + ((expr.drop (pos + 1)).takeWhile isNumChar).length
              · rw [if_pos hz] at h; cases h
              · rw [if_neg hz] at h
                rcases bindOp_error h with hN | ⟨num, hN, h⟩
                · exact mkNumber_not_outOfFuel _ hN
                · by_cases hst :
                      pos + 1 + ((expr.drop (pos + 1)).takeWhile isNumChar).length
                          + 1 < expr.length ∧
                        slice expr (pos + 1 +
                          ((expr.drop (pos + 1)).takeWhile isNumChar).length) 2 =
                          "**".data
                  · rw [if_pos hst] at h
                    rcases bindPRes_error h with hF | ⟨ex, q, hF, h⟩
                    · exact ih .pFactor _ hF
                    · rcases bindOp_error h with hB | ⟨u, hB, h⟩
                      · exact binary_operation_not_outOfFuel num ex "**" hB
                      · cases h
                  · rw [if_neg hst] at h; cases h
            · rw [if_neg hmin] at h
              by_cases hz :
                  pos = pos + ((expr.drop pos).takeWhile isNumChar).length
              · rw [if_pos hz] at h; cases h
              · rw [if_neg hz] at h
                rcases bindOp_error h with hN | ⟨num, hN, h⟩
                · exact mkNumber_not_outOfFuel _ hN
                · by_cases hst :
                      pos + ((expr.drop pos).takeWhile isNumChar).length
                          + 1 < expr.length ∧
                        slice expr (pos +
                          ((expr.drop pos).takeWhile isNumChar).length) 2 =
                          "**".data
                  · rw [if_pos hst] at h
                    rcases bindPRes_error h with hF | ⟨ex, q, hF, h⟩
                    · exact ih .pFactor _ hF
                    · rcases bindOp_error h with hB | ⟨u, hB, h⟩
                      · exact binary_operation_not_outOfFuel num ex "**" hB
                      · cases h
                  · rw [if_neg hst] at h; cases h


/-- C10: for every input string, evaluation terminates: the fuel
`3 * n + 3` (n the length of the space-stripped input) that
`evaluate_expression` hands the parser is always sufficient — the recursive
descent completes — and `evaluate_expression` never reports fuel
exhaustion. -/
theorem c10_evaluation_terminates :
    ∀ s : String,
      (parseRun (s.data.filter (fun c => c ≠ ' '))
          (fuelFor (s.data.filter (fun c => c ≠ ' ')).length) .pExpr 0).isSome
        = true ∧
      evaluate_expression s ≠ .error .outOfFuel := by
  intro s
  have hsuf := parseRun_fuel_sufficient (s.data.filter (fun c => c ≠ ' '))
    (fuelFor (s.data.filter (fun c => c ≠ ' ')).length) .pExpr 0
    (by simp only [needOffset, fuelFor]; omega)
  refine ⟨hsuf, ?_⟩
  intro hc
  simp only [evaluate_expression] at hc
  by_cases hemp : s.data.filter (fun c => c ≠ ' ') = []
  · rw [if_pos hemp] at hc
    cases hc
  · rw [if_neg hemp] at hc
    obtain ⟨r, hr⟩ := Option.isSome_iff_exists.mp hsuf
    rw [hr] at hc
    cases r with
    | error e =>
      cases hc
      exact parseRun_error_not_outOfFuel _ _ _ _ hr
    | ok vp =>
      obtain ⟨v, p⟩ := vp
      dsimp only at hc
      split at hc <;> cases hc

/-- C10 witness: the termination statement at a concrete input. -/
theorem c10_evaluation_terminates_witness :
    evaluate_expression "2 + 3 * 4" ≠ .error .outOfFuel :=
  (c10_evaluation_terminates "2 + 3 * 4").2

end CalculatorMCP
